import Mathlib

/-!
Verification development for the boxy package-manager orchestration engine.

Shallow embedding of the core components (cache with TTL, retry with
exponential backoff, job store with cancellation, batch update, aggregation)
translated from the Rust sources:
  crates/cache/src/lib.rs, crates/core/src/retry.rs,
  crates/core/src/executor.rs, boxy-gui/src/commands.rs,
  crates/cli/src/main.rs.
-/

namespace Boxy

/-- Error taxonomy, from crates/error/src/lib.rs (the variants the embedded
    code paths construct). -/
inductive BoxyError where
  | ManagerNotFound (name : String)
  | CommandTimeout
  | JsonError (message : String)
  | CacheError (message : String)
  deriving Repr, DecidableEq

/-! ## Cache (crates/cache/src/lib.rs)

The cache stores one file per key (`manager_path` is injective in the key),
each holding a JSON document decoding to `CacheEntry T`.  The disk is
modelled as a partial map from key to file content; a file either decodes
to an entry (`valid`) or does not (`corrupt`), reflecting the two outcomes
of `serde_json::from_str`.  Serialization of a value written by `set` is
assumed to round-trip (serde derive on plain data types). -/

/-- Rust `CacheEntry<T>` with `data` and `cached_at: i64`, from crates/cache/src/lib.rs. -/
structure CacheEntry (T : Type) where
  data : T
  cached_at : Int
  deriving Repr, DecidableEq

/-- On-disk content of one cache file: decodes to an entry, or fails to. -/
inductive FileContent (T : Type) where
  | valid (e : CacheEntry T)
  | corrupt
  deriving Repr, DecidableEq

/-- The cache directory: key to file content (none = no such file). -/
def Disk (T : Type) : Type := String → Option (FileContent T)

/-- Cache state: the configured TTL in whole seconds (`Duration::as_secs`).
    `cache_dir` is abstracted away by keying `Disk` directly by cache key. -/
structure Cache where
  ttl : Nat
  deriving Repr, DecidableEq

/-- The cast `ttl.as_secs() as i64`: u64 to i64, wrapping mod 2^64. -/
def u64AsI64 (n : Nat) : Int :=
  if n % 2 ^ 64 < 2 ^ 63 then ((n % 2 ^ 64 : Nat) : Int)
  else ((n % 2 ^ 64 : Nat) : Int) - 2 ^ 64

/-- For values below 2^63 the u64-to-i64 cast is the plain embedding. -/
theorem u64AsI64_small (n : Nat) (h : n < 2 ^ 63) : u64AsI64 n = (n : Int) := by
  have h64 : n < 2 ^ 64 := by omega
  unfold u64AsI64
  rw [Nat.mod_eq_of_lt h64, if_pos h]

/-- Embedding of `Cache::get` (crates/cache/src/lib.rs lines 70-99): missing file is a
    miss (`Ok(None)`), an unreadable payload is a `JsonError`, an entry with
    `now - cached_at > ttl` is a miss, otherwise the data is returned. -/
def Cache.get {T : Type} (c : Cache) (disk : Disk T) (now : Int) (key : String) :
    Except BoxyError (Option T) :=
  match disk key with
  | none => .ok none
  | some .corrupt => .error (.JsonError "解析缓存失败")
  | some (.valid e) =>
      if now - e.cached_at > u64AsI64 c.ttl then .ok none
      else .ok (some e.data)

/-- Embedding of `Cache::set` (lines 101-125): writes `CacheEntry { data, cached_at: now }`
    over whatever was at the key (full-file replace). -/
def Cache.set {T : Type} (disk : Disk T) (key : String) (v : T) (now : Int) : Disk T :=
  fun k => if k = key then some (.valid ⟨v, now⟩) else disk k

/-- Removal of one key from the disk map. -/
def eraseKey {T : Type} (disk : Disk T) (key : String) : Disk T :=
  fun k => if k = key then none else disk k

/-- Embedding of `Cache::invalidate` (lines 127-140): removes the file if it exists,
    succeeds without touching the filesystem if it does not. -/
def Cache.invalidate {T : Type} (disk : Disk T) (key : String) :
    Except BoxyError (Disk T) :=
  match disk key with
  | some _ => .ok (eraseKey disk key)
  | none => .ok disk

end Boxy

namespace Boxy

/-- A demonstration disk used by concrete witnesses: key "npm" holds a fresh
    entry, key "bad" holds an undecodable payload. -/
def demoDisk : Disk Nat :=
  fun k => if k = "npm" then some (.valid ⟨7, 50⟩)
           else if k = "bad" then some .corrupt
           else none

end Boxy

namespace Boxy

/-- C1: `Cache::get` returns `Some data` exactly on a present, decodable,
    unexpired entry; a missing or TTL-expired entry is `Ok(None)` (a miss,
    not an error); an undecodable payload is an error.  The four conjuncts
    cover the four possible states of the key on disk, so together they
    characterise `get` completely. -/
theorem cache_get_ttl_spec (T : Type) (c : Cache) (disk : Disk T) (now : Int)
    (key : String) (e : CacheEntry T) (httl : c.ttl < 2 ^ 63) :
    (disk key = none → Cache.get c disk now key = .ok none)
    ∧ (disk key = some (.valid e) → now - e.cached_at ≤ (c.ttl : Int) →
        Cache.get c disk now key = .ok (some e.data))
    ∧ (disk key = some (.valid e) → now - e.cached_at > (c.ttl : Int) →
        Cache.get c disk now key = .ok none)
    ∧ (disk key = some .corrupt →
        Cache.get c disk now key = .error (.JsonError "解析缓存失败")) := by
  have hcast : u64AsI64 c.ttl = (c.ttl : Int) := u64AsI64_small c.ttl httl
  refine ⟨?_, ?_, ?_, ?_⟩
  · intro h; simp [Cache.get, h]
  · intro h hfresh
    unfold Cache.get
    rw [h]
    show (if now - e.cached_at > u64AsI64 c.ttl then Except.ok none
          else Except.ok (some e.data)) = Except.ok (some e.data)
    rw [hcast, if_neg (by omega)]
  · intro h hstale
    unfold Cache.get
    rw [h]
    show (if now - e.cached_at > u64AsI64 c.ttl then Except.ok none
          else Except.ok (some e.data)) = Except.ok none
    rw [hcast, if_pos (by omega)]
  · intro h; simp [Cache.get, h]

/-- Witness for C1 at a concrete cache (ttl 3600), disk and key. -/
theorem cache_get_ttl_spec_witness :
    (demoDisk "npm" = none → Cache.get ⟨3600⟩ demoDisk 100 "npm" = .ok none)
    ∧ (demoDisk "npm" = some (.valid ⟨7, 50⟩) → (100 : Int) - 50 ≤ (3600 : Nat) →
        Cache.get ⟨3600⟩ demoDisk 100 "npm" = .ok (some 7))
    ∧ (demoDisk "npm" = some (.valid ⟨7, 50⟩) → (100 : Int) - 50 > (3600 : Nat) →
        Cache.get ⟨3600⟩ demoDisk 100 "npm" = .ok none)
    ∧ (demoDisk "npm" = some .corrupt →
        Cache.get ⟨3600⟩ demoDisk 100 "npm" = .error (.JsonError "解析缓存失败")) :=
  cache_get_ttl_spec Nat ⟨3600⟩ demoDisk 100 "npm" ⟨7, 50⟩ (by norm_num)

/-- C2: set-then-get within the TTL returns exactly the value set; invalidate
    removes the entry (so a following get is a miss) and succeeds also when
    the key is absent, leaving the disk unchanged. -/
theorem cache_set_get_invalidate (T : Type) (c : Cache) (disk : Disk T)
    (key : String) (v : T) (now now' : Int) (fc : FileContent T)
    (httl : c.ttl < 2 ^ 63) (hfresh : now' - now ≤ (c.ttl : Int)) :
    Cache.get c (Cache.set disk key v now) now' key = .ok (some v)
    ∧ Cache.get c (eraseKey disk key) now' key = .ok none
    ∧ (disk key = some fc → Cache.invalidate disk key = .ok (eraseKey disk key))
    ∧ (disk key = none → Cache.invalidate disk key = .ok disk) := by
  have hcast : u64AsI64 c.ttl = (c.ttl : Int) := u64AsI64_small c.ttl httl
  refine ⟨?_, ?_, ?_, ?_⟩
  · have hset : (Cache.set disk key v now) key = some (.valid ⟨v, now⟩) := by
      unfold Cache.set; simp
    unfold Cache.get
    rw [hset]
    show (if now' - now > u64AsI64 c.ttl then Except.ok none
          else Except.ok (some v)) = Except.ok (some v)
    rw [hcast, if_neg (by omega)]
  · simp [Cache.get, eraseKey]
  · intro h; simp [Cache.invalidate, h]
  · intro h; simp [Cache.invalidate, h]

/-- Witness for C2 at ttl 3600, a concrete disk, value 42, times 50 and 60. -/
theorem cache_set_get_invalidate_witness :
    Cache.get ⟨3600⟩ (Cache.set demoDisk "npm" 42 50) 60 "npm" = .ok (some 42)
    ∧ Cache.get ⟨3600⟩ (eraseKey demoDisk "npm") 60 "npm" = .ok none
    ∧ (demoDisk "npm" = some (.valid ⟨7, 50⟩) →
        Cache.invalidate demoDisk "npm" = .ok (eraseKey demoDisk "npm"))
    ∧ (demoDisk "npm" = none → Cache.invalidate demoDisk "npm" = .ok demoDisk) :=
  cache_set_get_invalidate Nat ⟨3600⟩ demoDisk "npm" 42 50 60 (.valid ⟨7, 50⟩)
    (by norm_num) (by norm_num)

end Boxy

namespace Boxy

/-! ## Retry with exponential backoff (crates/core/src/retry.rs)

The Rust loop starts with `attempt = 1`, calls the operation, returns an
`Ok` immediately, returns the last error once `attempt >= max_attempts`,
and otherwise sleeps `base_delay.checked_mul(1 << min(attempt-1, 5))
.unwrap_or(base_delay)` and increments `attempt`.  The loop is embedded
with explicit fuel `max_attempts - attempt` (truncated Nat subtraction),
which is zero exactly when `attempt >= max_attempts`, so the fuel variant
takes the same branches as the source loop.  Durations are total
nanosecond counts.  Alongside the result we record the index of the last
attempt performed (the number of invocations, since attempts are numbered
from 1) and the ordered list of delays slept. -/

/-- Total nanoseconds of Rust `Duration::MAX`
    (`u64::MAX` seconds plus `10^9 - 1` nanoseconds). -/
def durationMax : Nat := 2 ^ 64 * 1000000000 - 1

/-- Rust `Duration::checked_mul`: `none` exactly when the exact product does not
    fit in a `Duration`. -/
def checkedMul (d factor : Nat) : Option Nat :=
  if d * factor ≤ durationMax then some (d * factor) else none

/-- The delay slept after failed attempt `attempt` (retry.rs lines 25-28):
    `shift = min(attempt - 1, 5)`, `factor = 1 << shift`,
    `delay = base_delay.checked_mul(factor).unwrap_or(base_delay)`. -/
def backoffDelay (baseDelay attempt : Nat) : Nat :=
  (checkedMul baseDelay (2 ^ min (attempt - 1) 5)).getD baseDelay

/-- The retry loop from a given 1-based `attempt`, with
    `fuel = max_attempts - attempt` remaining retries.  Returns
    (result, last attempt index, delays slept in order). -/
def retryGo {E T : Type} (baseDelay : Nat) (f : Nat → Except E T)
    (attempt : Nat) : Nat → Except E T × Nat × List Nat
  | 0 =>
    match f attempt with
    | .ok r => (.ok r, attempt, [])
    | .error e => (.error e, attempt, [])
  | fuel + 1 =>
    match f attempt with
    | .ok r => (.ok r, attempt, [])
    | .error _ =>
      let rest := retryGo baseDelay f (attempt + 1) fuel
      (rest.1, rest.2.1, backoffDelay baseDelay attempt :: rest.2.2)

/-- Embedding of `retry_with_backoff(max_attempts, base_delay, f)` (retry.rs lines 8-34). -/
def retry_with_backoff {E T : Type} (maxAttempts baseDelay : Nat)
    (f : Nat → Except E T) : Except E T × Nat × List Nat :=
  retryGo baseDelay f 1 (maxAttempts - 1)

/-- The last attempt index never falls below the starting attempt. -/
theorem retryGo_attempt_le {E T : Type} (b : Nat) (f : Nat → Except E T) :
    ∀ fuel a, a ≤ (retryGo b f a fuel).2.1 := by
  intro fuel
  induction fuel with
  | zero =>
    intro a
    unfold retryGo
    cases hf : f a <;> simp
  | succ n ih =>
    intro a
    unfold retryGo
    cases hf : f a with
    | ok r => simp
    | error e =>
      simp only []
      have h := ih (a + 1)
      omega

/-- Each recorded delay is the backoff delay of the attempt it follows. -/
theorem retryGo_delay_elems {E T : Type} (b : Nat) (f : Nat → Except E T) :
    ∀ fuel a i, i < (retryGo b f a fuel).2.2.length →
      (retryGo b f a fuel).2.2.getD i 0 = backoffDelay b (a + i) := by
  intro fuel
  induction fuel with
  | zero =>
    intro a i h
    unfold retryGo at h
    cases hf : f a <;> rw [hf] at h <;> simp at h
  | succ n ih =>
    intro a i h
    unfold retryGo at h ⊢
    cases hf : f a with
    | ok r =>
      rw [hf] at h
      have h2 : i < ([] : List Nat).length := h
      simp at h2
    | error e =>
      rw [hf] at h
      have h2 : i < (backoffDelay b a :: (retryGo b f (a + 1) n).2.2).length := h
      show (backoffDelay b a :: (retryGo b f (a + 1) n).2.2).getD i 0 =
        backoffDelay b (a + i)
      cases i with
      | zero => simp
      | succ j =>
        simp only [List.getD_cons_succ]
        have hlen : j < (retryGo b f (a + 1) n).2.2.length := by
          simpa using h2
        have hx := ih (a + 1) j hlen
        rw [hx]
        congr 1
        omega

end Boxy

namespace Boxy

/-- Unfolding of the retry loop at a successful attempt. -/
theorem retryGo_ok {E T : Type} (b : Nat) (f : Nat → Except E T) (a fuel : Nat)
    (r : T) (h : f a = .ok r) : retryGo b f a fuel = (.ok r, a, []) := by
  cases fuel <;> simp [retryGo, h]

/-- Unfolding of the retry loop at a failed last attempt. -/
theorem retryGo_error_zero {E T : Type} (b : Nat) (f : Nat → Except E T)
    (a : Nat) (e : E) (h : f a = .error e) :
    retryGo b f a 0 = (.error e, a, []) := by
  simp [retryGo, h]

/-- Unfolding of the retry loop at a failed attempt with retries left. -/
theorem retryGo_error_succ {E T : Type} (b : Nat) (f : Nat → Except E T)
    (a n : Nat) (e : E) (h : f a = .error e) :
    retryGo b f a (n + 1) =
      ((retryGo b f (a + 1) n).1, (retryGo b f (a + 1) n).2.1,
        backoffDelay b a :: (retryGo b f (a + 1) n).2.2) := by
  simp [retryGo, h]

/-- A non-ok `Except` is an error. -/
theorem exists_error_of_not_isOk {E T : Type} (x : Except E T)
    (h : x.isOk = false) : ∃ e, x = .error e := by
  cases x with
  | ok r => simp [Except.isOk, Except.toBool] at h
  | error e => exact ⟨e, rfl⟩

/-- An always-failing run uses all its fuel and returns the last call. -/
theorem retryGo_all_fail {E T : Type} (b : Nat) (f : Nat → Except E T)
    (hfail : ∀ i, (f i).isOk = false) :
    ∀ fuel a, (retryGo b f a fuel).1 = f (a + fuel)
      ∧ (retryGo b f a fuel).2.1 = a + fuel := by
  intro fuel
  induction fuel with
  | zero =>
    intro a
    obtain ⟨e, he⟩ := exists_error_of_not_isOk (f a) (hfail a)
    rw [retryGo_error_zero b f a e he]
    exact ⟨by rw [Nat.add_zero, he], by rw [Nat.add_zero]⟩
  | succ n ih =>
    intro a
    obtain ⟨e, he⟩ := exists_error_of_not_isOk (f a) (hfail a)
    rw [retryGo_error_succ b f a n e he]
    have h := ih (a + 1)
    constructor
    · show (retryGo b f (a + 1) n).1 = f (a + (n + 1))
      rw [h.1]
      congr 1
      omega
    · show (retryGo b f (a + 1) n).2.1 = a + (n + 1)
      rw [h.2]
      omega

/-- A run whose first success is attempt `k` (within the budget) returns
    that success and stops at attempt `k`. -/
theorem retryGo_first_success {E T : Type} (b : Nat) (f : Nat → Except E T)
    (v : T) : ∀ fuel a k, a ≤ k → k ≤ a + fuel → f k = .ok v →
      (∀ i, a ≤ i → i < k → (f i).isOk = false) →
      (retryGo b f a fuel).1 = .ok v ∧ (retryGo b f a fuel).2.1 = k := by
  intro fuel
  induction fuel with
  | zero =>
    intro a k hak hka hk hpre
    have hk0 : k = a := by omega
    subst hk0
    rw [retryGo_ok b f k 0 v hk]
    exact ⟨rfl, rfl⟩
  | succ n ih =>
    intro a k hak hka hk hpre
    rcases eq_or_lt_of_le hak with heq | hlt
    · subst heq
      rw [retryGo_ok b f a (n + 1) v hk]
      exact ⟨rfl, rfl⟩
    · have hfa : (f a).isOk = false := hpre a le_rfl hlt
      obtain ⟨e, he⟩ := exists_error_of_not_isOk (f a) hfa
      rw [retryGo_error_succ b f a n e he]
      have h := ih (a + 1) k (by omega) (by omega) hk
        (fun i h1 h2 => hpre i (by omega) h2)
      exact ⟨h.1, h.2⟩

end Boxy

namespace Boxy

/-- An operation failing on every attempt, for concrete witnesses. -/
def demoFailOp : Nat → Except String Nat := fun _ => .error "boom"

/-- An operation failing on attempt 1 and succeeding on attempt 2. -/
def demoFlakyOp : Nat → Except String Nat :=
  fun i => if i = 2 then .ok 5 else .error "transient"

/-- An always-failing operation over trivial types, for delay computations. -/
def alwaysFailU : Nat → Except Unit Unit := fun _ => .error ()

/-- C3: `retry_with_backoff(3, b, f)` on an always-failing `f` performs
    exactly 3 invocations and returns the 3rd invocation's error unchanged;
    on an operation whose first success is attempt `k ≤ 3`, the success is
    returned and the last attempt performed is `k` (no further invocation). -/
theorem retry_bound_spec (E T : Type) (b : Nat) (f g : Nat → Except E T)
    (v : T) (k : Nat)
    (hfail : ∀ i, (f i).isOk = false)
    (hk1 : 1 ≤ k) (hk3 : k ≤ 3) (hgk : g k = .ok v)
    (hgpre : ∀ i, 1 ≤ i → i < k → (g i).isOk = false) :
    (retry_with_backoff 3 b f).1 = f 3
    ∧ (retry_with_backoff 3 b f).2.1 = 3
    ∧ (retry_with_backoff 3 b g).1 = .ok v
    ∧ (retry_with_backoff 3 b g).2.1 = k := by
  have hfl := retryGo_all_fail b f hfail 2 1
  have hgs := retryGo_first_success b g v 2 1 k hk1 (by omega) hgk hgpre
  refine ⟨?_, ?_, ?_, ?_⟩
  · show (retryGo b f 1 2).1 = f 3
    rw [hfl.1]
  · show (retryGo b f 1 2).2.1 = 3
    rw [hfl.2]
  · exact hgs.1
  · exact hgs.2

/-- Witness for C3: always-failing op and an op succeeding on attempt 2. -/
theorem retry_bound_spec_witness :
    (retry_with_backoff 3 1 demoFailOp).1 = demoFailOp 3
    ∧ (retry_with_backoff 3 1 demoFailOp).2.1 = 3
    ∧ (retry_with_backoff 3 1 demoFlakyOp).1 = .ok 5
    ∧ (retry_with_backoff 3 1 demoFlakyOp).2.1 = 2 :=
  retry_bound_spec String Nat 1 demoFailOp demoFlakyOp 5 2
    (fun _ => rfl) (by norm_num) (by norm_num) rfl
    (fun i h1 h2 => by
      have hi : i = 1 := by omega
      subst hi
      rfl)

/-- C10: the operation is always invoked at least once; with
    `max_attempts ≤ 1` a failing operation is invoked exactly once, its
    error is returned unchanged, and no sleep happens. -/
theorem retry_min_attempts_spec (E T : Type) (ma b ma2 b2 : Nat)
    (f g : Nat → Except E T) (e : E)
    (hma : ma ≤ 1) (hf1 : f 1 = .error e) :
    retry_with_backoff ma b f = (.error e, 1, [])
    ∧ 1 ≤ (retry_with_backoff ma2 b2 g).2.1 := by
  constructor
  · have h0 : ma - 1 = 0 := by omega
    unfold retry_with_backoff
    rw [h0]
    exact retryGo_error_zero b f 1 e hf1
  · exact retryGo_attempt_le b2 g (ma2 - 1) 1

/-- Witness for C10 at max_attempts 0 (failing op) and 3 (flaky op). -/
theorem retry_min_attempts_spec_witness :
    retry_with_backoff 0 9 demoFailOp = (.error "boom", 1, [])
    ∧ 1 ≤ (retry_with_backoff 3 1 demoFlakyOp).2.1 :=
  retry_min_attempts_spec String Nat 0 9 3 1 demoFailOp demoFlakyOp "boom"
    (by norm_num) rfl

/-- C4 (amended): the sleep recorded after failed attempt `j + 1` is
    `base_delay * 2^(min j 5)` whenever that product fits in a `Duration`;
    when it would overflow, `checked_mul` falls back to `base_delay` itself;
    in every case the multiplier never exceeds 32. -/
theorem retry_backoff_delay_spec (E T : Type) (ma b j : Nat)
    (f : Nat → Except E T)
    (hj : j < (retry_with_backoff ma b f).2.2.length) :
    (retry_with_backoff ma b f).2.2.getD j 0 = backoffDelay b (j + 1)
    ∧ (b * 2 ^ min j 5 ≤ durationMax →
        backoffDelay b (j + 1) = b * 2 ^ min j 5)
    ∧ backoffDelay b (j + 1) ≤ b * 32 := by
  have hmin : j + 1 - 1 = j := by omega
  refine ⟨?_, ?_, ?_⟩
  · have h := retryGo_delay_elems b f (ma - 1) 1 j hj
    rw [show 1 + j = j + 1 from Nat.add_comm 1 j] at h
    exact h
  · intro hfit
    unfold backoffDelay checkedMul
    rw [hmin, if_pos hfit]
    rfl
  · unfold backoffDelay checkedMul
    rw [hmin]
    by_cases hfit : b * 2 ^ min j 5 ≤ durationMax
    · rw [if_pos hfit]
      show b * 2 ^ min j 5 ≤ b * 32
      have hpow : 2 ^ min j 5 ≤ 2 ^ 5 :=
        Nat.pow_le_pow_right (by norm_num) (min_le_right j 5)
      calc b * 2 ^ min j 5 ≤ b * 2 ^ 5 := Nat.mul_le_mul le_rfl hpow
        _ = b * 32 := by norm_num
    · rw [if_neg hfit]
      show b ≤ b * 32
      omega

/-- Witness for C4 (amended) at the second recorded delay of a 3-attempt
    always-failing run with base delay 7 ns. -/
theorem retry_backoff_delay_spec_witness :
    (retry_with_backoff 3 7 alwaysFailU).2.2.getD 1 0 = backoffDelay 7 2
    ∧ (7 * 2 ^ min 1 5 ≤ durationMax → backoffDelay 7 2 = 7 * 2 ^ min 1 5)
    ∧ backoffDelay 7 2 ≤ 7 * 32 :=
  retry_backoff_delay_spec Unit Unit 3 7 1 alwaysFailU (by decide)

/-- C4 counterexample: with `base_delay = Duration::MAX`, the delay recorded
    after the 2nd failed attempt is `base_delay` itself (`checked_mul`
    overflows and falls back), not `base_delay * 2` as the claim computes. -/
theorem retry_backoff_overflow_cex :
    (retry_with_backoff 3 durationMax alwaysFailU).2.2.getD 1 0 = durationMax
    ∧ durationMax ≠ durationMax * 2 ^ min 1 5 := by
  constructor
  · rfl
  · decide

end Boxy

namespace Boxy

/-! ## Job store and cancellation (boxy-gui/src/commands.rs)

`TaskStore { tasks: Vec<Job>, logs: HashMap<String, Vec<String>>,
handles: HashMap<String, JoinHandle> }`.  Logs are an association list,
handles the list of ids holding a join handle.  Timestamps are integers,
progress the exact percentage values the code writes (0, 10..90, 100). -/

/-- The `Operation` enum, from crates/core/src/package.rs. -/
inductive Operation where
  | Install
  | Update
  | Uninstall
  deriving Repr, DecidableEq

/-- The `JobStatus` enum, from crates/core/src/package.rs. -/
inductive JobStatus where
  | Pending
  | Running
  | Succeeded
  | Failed
  | Canceled
  deriving Repr, DecidableEq

/-- The `Job` record, from crates/core/src/package.rs (progress as the exact integer
    percentages the commands write). -/
structure Job where
  id : String
  manager : String
  operation : Operation
  target : String
  status : JobStatus
  progress : Option Nat
  step : Option String
  started_at : Option Int
  finished_at : Option Int
  logs : List String
  error : Option String
  deriving Repr, DecidableEq

/-- The `TaskStore`, from boxy-gui/src/lib.rs / commands.rs. -/
structure TaskStore where
  tasks : List Job
  logs : List (String × List String)
  handles : List String
  deriving Repr, DecidableEq

/-- Embedding of `store.tasks.iter_mut().find(..)` plus a field update: rewrite
    the first matching element, leave everything else alone. -/
def updateFirst (p : Job → Bool) (g : Job → Job) : List Job → List Job
  | [] => []
  | j :: rest => if p j then g j :: rest else j :: updateFirst p g rest

/-- Embedding of `store.logs.get_mut(&id)` plus push: append to the entry if the key exists. -/
def pushLog : List (String × List String) → String → String → List (String × List String)
  | [], _, _ => []
  | (k, ls) :: rest, id, msg =>
    if k = id then (k, ls ++ [msg]) :: rest
    else (k, ls) :: pushLog rest id msg

/-- The field writes `cancel_task` performs on the found job
    (commands.rs lines 331-336), applied unconditionally to whatever
    status the job currently has. -/
def setCanceledJob (now : Int) (j : Job) : Job :=
  { j with status := .Canceled, finished_at := some now,
           progress := some 100, step := some "canceled" }

/-- Embedding of `cancel_task` (commands.rs lines 314-353): abort and drop the handle,
    force the first job with the id to Canceled, append a "Canceled" log
    line if the id has a log entry.  It always returns `Ok(())`. -/
def cancelTask (store : TaskStore) (id : String) (now : Int) : TaskStore :=
  { tasks := updateFirst (fun j => j.id == id) (setCanceledJob now) store.tasks,
    logs := pushLog store.logs id "Canceled",
    handles := store.handles.erase id }

/-- Lemma: `updateFirst` rewrites exactly the first match. -/
theorem updateFirst_append (p : Job → Bool) (g : Job → Job) :
    ∀ (pre : List Job) (j : Job) (post : List Job),
      (∀ j' ∈ pre, p j' = false) → p j = true →
      updateFirst p g (pre ++ j :: post) = pre ++ g j :: post := by
  intro pre
  induction pre with
  | nil =>
    intro j post hpre hj
    simp [updateFirst, hj]
  | cons x xs ih =>
    intro j post hpre hj
    have hx : p x = false := hpre x (List.mem_cons_self x xs)
    have hrec := ih j post (fun j' h => hpre j' (List.mem_cons_of_mem x h)) hj
    simp [updateFirst, hx, hrec]

end Boxy

namespace Boxy

/-- A job already in the terminal state Succeeded. -/
def demoTermJob : Job :=
  { id := "j1", manager := "npm", operation := .Update, target := "left-pad",
    status := .Succeeded, progress := some 100, step := some "completed",
    started_at := some 1, finished_at := some 5, logs := [], error := none }

/-- A store holding only the terminal job. -/
def demoTermStore : TaskStore :=
  { tasks := [demoTermJob], logs := [("j1", ["Completed"])], handles := [] }

/-- A running job. -/
def demoRunJob : Job :=
  { id := "r1", manager := "brew", operation := .Install, target := "jq",
    status := .Running, progress := some 30, step := some "running",
    started_at := some 1, finished_at := none, logs := [], error := none }

/-- A store holding only the running job. -/
def demoRunStore : TaskStore :=
  { tasks := [demoRunJob], logs := [("r1", [])], handles := ["r1"] }

/-- C6 counterexample: cancel on a job already in the terminal state
    Succeeded is not a no-op on state - the code rewrites its status to
    Canceled and refreshes its finished_at. -/
theorem cancel_terminal_not_noop_cex :
    demoTermJob.status = .Succeeded
    ∧ demoTermJob.finished_at = some 5
    ∧ (cancelTask demoTermStore "j1" 9).tasks.map Job.status = [.Canceled]
    ∧ (cancelTask demoTermStore "j1" 9).tasks.map Job.finished_at = [some 9] := by
  refine ⟨rfl, rfl, rfl, rfl⟩

/-- C6 (amended): `cancel_task` forces the first job carrying the id -
    whatever its current status, Running or terminal - to Canceled with
    progress 100, a fresh finished_at and step "canceled", leaving its
    error untouched; in particular a Running job ends Canceled with
    progress 100. -/
theorem cancel_task_spec (store : TaskStore) (id : String) (now : Int)
    (pre post : List Job) (j : Job)
    (hsplit : store.tasks = pre ++ j :: post)
    (hpre : ∀ j' ∈ pre, j'.id ≠ id) (hj : j.id = id) :
    (cancelTask store id now).tasks = pre ++ setCanceledJob now j :: post
    ∧ (setCanceledJob now j).status = .Canceled
    ∧ (setCanceledJob now j).progress = some 100
    ∧ (setCanceledJob now j).finished_at = some now
    ∧ (setCanceledJob now j).error = j.error := by
  refine ⟨?_, rfl, rfl, rfl, rfl⟩
  show updateFirst (fun j' => j'.id == id) (setCanceledJob now) store.tasks
    = pre ++ setCanceledJob now j :: post
  rw [hsplit]
  exact updateFirst_append _ _ pre j post
    (fun j' h => by simpa using hpre j' h)
    (by simpa using hj)

/-- Witness for C6 (amended): canceling the running job r1 at time 9. -/
theorem cancel_task_spec_witness :
    (cancelTask demoRunStore "r1" 9).tasks = [] ++ setCanceledJob 9 demoRunJob :: []
    ∧ (setCanceledJob 9 demoRunJob).status = .Canceled
    ∧ (setCanceledJob 9 demoRunJob).progress = some 100
    ∧ (setCanceledJob 9 demoRunJob).finished_at = some 9
    ∧ (setCanceledJob 9 demoRunJob).error = demoRunJob.error :=
  cancel_task_spec demoRunStore "r1" 9 [] [] demoRunJob rfl
    (by simp) rfl

end Boxy

namespace Boxy

/-! ## Batch update (boxy-gui/src/commands.rs, spawn_batch_update) -/

/-- The per-package loop of `spawn_batch_update` (commands.rs lines
    720-773): packages are upgraded strictly in list order; the first
    failed upgrade marks the job Failed and returns at once; if every
    upgrade succeeds (including the empty list, lines 696-718) the job
    ends Succeeded.  `upgrade p` stands for the full
    `executor.execute(.. upgrade(p) ..)` result for package `p`; the
    returned list records the packages actually attempted, in order. -/
def runBatchUpdate (upgrade : String → Except BoxyError Unit) :
    List String → JobStatus × List String
  | [] => (.Succeeded, [])
  | p :: rest =>
    match upgrade p with
    | .ok _ =>
      let r := runBatchUpdate upgrade rest
      (r.1, p :: r.2)
    | .error _ => (.Failed, [p])

/-- An ok `Except` carries a value. -/
theorem exists_ok_of_isOk {E T : Type} (x : Except E T)
    (h : x.isOk = true) : ∃ v, x = .ok v := by
  cases x with
  | ok r => exact ⟨r, rfl⟩
  | error e => simp [Except.isOk, Except.toBool] at h

/-- A batch whose upgrades all succeed attempts every package and ends
    Succeeded. -/
theorem runBatchUpdate_all_ok (upgrade : String → Except BoxyError Unit) :
    ∀ l, (∀ q ∈ l, (upgrade q).isOk = true) →
      runBatchUpdate upgrade l = (.Succeeded, l) := by
  intro l
  induction l with
  | nil => intro h; rfl
  | cons x xs ih =>
    intro h
    obtain ⟨v, hv⟩ := exists_ok_of_isOk (upgrade x) (h x (List.mem_cons_self x xs))
    simp only [runBatchUpdate, hv]
    rw [ih (fun q hq => h q (List.mem_cons_of_mem x hq))]

/-- C7: in a batch whose packages before `p` all upgrade successfully and
    whose package `p` fails, exactly the packages up to and including `p`
    are attempted, in order, the job ends Failed, and nothing after `p` is
    ever attempted; a batch with no failure attempts everything and ends
    Succeeded. -/
theorem batch_update_spec (upgrade : String → Except BoxyError Unit)
    (good pre post : List String) (p : String)
    (hgood : ∀ q ∈ good, (upgrade q).isOk = true)
    (hpre : ∀ q ∈ pre, (upgrade q).isOk = true)
    (hp : (upgrade p).isOk = false) :
    runBatchUpdate upgrade good = (.Succeeded, good)
    ∧ runBatchUpdate upgrade (pre ++ p :: post) = (.Failed, pre ++ [p]) := by
  constructor
  · exact runBatchUpdate_all_ok upgrade good hgood
  · induction pre with
    | nil =>
      obtain ⟨e, he⟩ := exists_error_of_not_isOk (upgrade p) hp
      simp [runBatchUpdate, he]
    | cons x xs ih =>
      obtain ⟨v, hv⟩ := exists_ok_of_isOk (upgrade x)
        (hpre x (List.mem_cons_self x xs))
      have hrec := ih (fun q hq => hpre q (List.mem_cons_of_mem x hq))
      simp [runBatchUpdate, hv, hrec]

/-- Upgrade outcome used by the C7 witness: package B fails, others work. -/
def demoUpgrade : String → Except BoxyError Unit :=
  fun p => if p = "B" then .error .CommandTimeout else .ok ()

/-- Witness for C7 on the list A, B, C with B failing: A succeeds, B fails,
    C is never attempted. -/
theorem batch_update_spec_witness :
    runBatchUpdate demoUpgrade ["A", "C"] = (.Succeeded, ["A", "C"])
    ∧ runBatchUpdate demoUpgrade (["A"] ++ "B" :: ["C"]) = (.Failed, ["A"] ++ ["B"]) :=
  batch_update_spec demoUpgrade ["A", "C"] ["A"] ["C"] "B"
    (by decide) (by decide) (by decide)

end Boxy

namespace Boxy

/-! ## Post-mutation cache invalidation (C8)

Two code paths follow a mutating operation with a cache invalidation:
the GUI worker in `spawn_task` (boxy-gui/src/commands.rs lines 549-584)
fixes the job's terminal status from the operation result first and only
logs an invalidation failure afterwards, while the CLI `cmd_install`
(crates/cli/src/main.rs lines 841-859) propagates the invalidation result
with the `?` operator. -/

/-- The terminal bookkeeping a finished GUI task leaves behind. -/
structure FinishOutcome where
  status : JobStatus
  error : Option String
  progress : Option Nat
  extraLogs : List String
  deriving Repr, DecidableEq

/-- Terminal transition of `spawn_task` (commands.rs lines 549-584): status
    and error come from the operation result; the final log line is the
    error or "Completed"; a failed `cache.invalidate` afterwards only
    appends a log line. -/
def finishJob (result : Except String Unit) (inval : Except String Unit) :
    FinishOutcome :=
  let se : JobStatus × Option String :=
    match result with
    | .ok _ => (.Succeeded, none)
    | .error err => (.Failed, some err)
  let logs1 : List String :=
    match se.2 with
    | some err => [err]
    | none => ["Completed"]
  let logs2 : List String :=
    match inval with
    | .ok _ => logs1
    | .error err => logs1 ++ ["清除缓存失败: " ++ err]
  ⟨se.1, se.2, some 100, logs2⟩

/-- Post-steps of the CLI `cmd_install` (crates/cli/src/main.rs lines
    841-859): the executor result is propagated with its context, and after
    a successful install the cache invalidation result is propagated too. -/
def cmdInstallPost (installRes : Except String Unit)
    (inval : Except String Unit) : Except String Unit :=
  match installRes with
  | .error e => .error ("安装失败: " ++ e)
  | .ok _ =>
    match inval with
    | .error e => .error ("清除缓存失败: " ++ e)
    | .ok _ => .ok ()

/-- C8 counterexample: in the CLI install command a successful install
    followed by a failing cache invalidation makes the caller observe an
    error, not success. -/
theorem invalidate_failure_cli_cex :
    cmdInstallPost (.ok ()) (.error "权限不足") =
      .error ("清除缓存失败: " ++ "权限不足")
    ∧ cmdInstallPost (.ok ()) (.error "权限不足") ≠ .ok () := by
  exact ⟨rfl, fun h => Except.noConfusion h⟩

/-- C8 (amended): in the GUI task path a cache-invalidation failure after a
    successful mutation only appends a log line - the job still ends
    Succeeded with no error recorded; the CLI install command instead
    propagates the invalidation failure to its caller. -/
theorem invalidate_failure_spec (inval : Except String Unit) (e : String) :
    (finishJob (.ok ()) inval).status = .Succeeded
    ∧ (finishJob (.ok ()) inval).error = none
    ∧ (finishJob (.ok ()) (.error e)).extraLogs
        = ["Completed", "清除缓存失败: " ++ e]
    ∧ cmdInstallPost (.ok ()) (.error e) = .error ("清除缓存失败: " ++ e) := by
  refine ⟨?_, ?_, rfl, rfl⟩
  · cases inval <;> rfl
  · cases inval <;> rfl

end Boxy

namespace Boxy

/-! ## Aggregated reads (C9)

`scan_managers` (boxy-gui/src/commands.rs lines 47-92) swallows every
backend failure per manager (`unwrap_or(false)` / `unwrap_or(None)`),
while the CLI `cmd_list` (crates/cli/src/main.rs lines 493-543) degrades
only the availability check and propagates an invalidation or
`list_installed` failure out of the whole aggregate
(`Ok(Err(err)) => return Err(err)` in its join loop). -/

/-- The package fields the aggregated reads consume (the remaining fields
    of `Package` are carried through untouched and are omitted). -/
structure Package where
  name : String
  outdated : Bool
  deriving Repr, DecidableEq

/-- The `ManagerStatus` record, from crates/core/src/package.rs. -/
structure ManagerStatus where
  name : String
  version : String
  available : Bool
  package_count : Nat
  outdated_count : Nat
  deriving Repr, DecidableEq

/-- Rust `Result::unwrap_or`. -/
def unwrapOr {E A : Type} (x : Except E A) (d : A) : A :=
  match x with
  | .ok a => a
  | .error _ => d

/-- Per-manager backend behaviour seen by the GUI scan: whether
    `create_manager` knows the name, and the results of `check_available`
    and of the cache read for the manager's key. -/
structure ScanProbe where
  known : Bool
  check_available : Except String Bool
  cache_read : Except String (Option (List Package))

/-- One manager's entry in `scan_managers` (commands.rs lines 54-80):
    every backend failure degrades (`unwrap_or(false)`,
    `unwrap_or(None).unwrap_or_default()`), never errors. -/
def scanOne (name : String) (b : ScanProbe) : ManagerStatus :=
  if b.known then
    let available := unwrapOr b.check_available false
    let cached := (unwrapOr b.cache_read none).getD []
    ⟨name, "", available, cached.length,
      (cached.filter (fun p => p.outdated)).length⟩
  else ⟨name, "", false, 0, 0⟩

/-- Embedding of `scan_managers`: one entry per manager name, in order, total. -/
def scanManagers (env : String → ScanProbe) (names : List String) :
    List ManagerStatus :=
  names.map (fun n => scanOne n (env n))

/-- Per-manager backend behaviour seen by the CLI list. -/
structure ListProbe where
  known : Bool
  check_available : Except String Bool
  invalidate : Except String Unit
  list_installed : Except String (List Package)

/-- One manager's task in `cmd_list` (main.rs lines 501-532): an unknown or
    unavailable manager degrades to an empty unavailable entry, but a
    failing invalidation or listing is returned as an error (`?` with
    context). -/
def listOne (name : String) (b : ListProbe) :
    Except String (String × List Package × Bool) :=
  if b.known then
    if unwrapOr b.check_available false then
      match b.invalidate with
      | .error e => .error e
      | .ok _ =>
        match b.list_installed with
        | .error e => .error e
        | .ok pkgs => .ok (name, pkgs, true)
    else .ok (name, [], false)
  else .ok (name, [], false)

/-- The join loop of `cmd_list` (main.rs lines 537-543): collect entries in
    order, returning the first per-manager error as the whole result. -/
def cmdListCollect (env : String → ListProbe) :
    List String → Except String (List (String × List Package × Bool))
  | [] => .ok []
  | n :: rest =>
    match listOne n (env n) with
    | .error e => .error e
    | .ok entry =>
      match cmdListCollect env rest with
      | .error e => .error e
      | .ok entries => .ok (entry :: entries)

end Boxy

namespace Boxy

/-- Scan environment for witnesses: npm healthy with one outdated package
    cached, pip known but failing both probes, everything else unknown. -/
def demoScanEnv : String → ScanProbe :=
  fun n =>
    if n = "npm" then
      ⟨true, .ok true, .ok (some [⟨"left-pad", true⟩, ⟨"chalk", false⟩])⟩
    else if n = "pip" then ⟨true, .error "spawn failed", .error "io"⟩
    else ⟨false, .ok false, .ok none⟩

/-- List environment for witnesses: npm healthy, pip available but its
    listing fails, everything else unknown. -/
def demoListEnv : String → ListProbe :=
  fun n =>
    if n = "npm" then ⟨true, .ok true, .ok (), .ok [⟨"left-pad", true⟩]⟩
    else if n = "pip" then ⟨true, .ok true, .ok (), .error "pip list failed"⟩
    else ⟨false, .ok false, .ok (), .ok []⟩

/-- C9 counterexample: in the CLI aggregate, one backend whose listing
    fails makes the whole `cmd_list` return an error instead of reporting
    that manager inline beside npm's successful result. -/
theorem aggregate_list_failure_cex :
    listOne "npm" (demoListEnv "npm") = .ok ("npm", [⟨"left-pad", true⟩], true)
    ∧ cmdListCollect demoListEnv ["npm", "pip"] = .error "pip list failed" := by
  exact ⟨rfl, rfl⟩

/-- C9 (amended): the GUI scan never fails as a whole - it returns one
    entry per manager, keyed by the manager's name, and a backend whose
    availability check errors is reported inline as unavailable; the CLI
    `cmd_list` degrades only unknown/unavailable managers and fails as a
    whole with the first backend error from an invalidation or listing. -/
theorem aggregate_isolation_spec (env : String → ScanProbe)
    (envL : String → ListProbe) (names pre post : List String)
    (n e : String)
    (hpre : ∀ m ∈ pre, (listOne m (envL m)).isOk = true)
    (hn : listOne n (envL n) = .error e) :
    (scanManagers env names).length = names.length
    ∧ (∀ m ∈ names, (scanOne m (env m)).name = m)
    ∧ (∀ m ∈ names, ((env m).check_available).isOk = false →
        (scanOne m (env m)).available = false)
    ∧ cmdListCollect envL (pre ++ n :: post) = .error e := by
  refine ⟨?_, ?_, ?_, ?_⟩
  · simp [scanManagers]
  · intro m hm
    unfold scanOne
    split <;> rfl
  · intro m hm hca
    obtain ⟨ec, hec⟩ := exists_error_of_not_isOk ((env m).check_available) hca
    unfold scanOne
    split
    · show unwrapOr (env m).check_available false = false
      rw [hec]
      rfl
    · rfl
  · induction pre with
    | nil => simp [cmdListCollect, hn]
    | cons x xs ih =>
      obtain ⟨entry, hentry⟩ := exists_ok_of_isOk (listOne x (envL x))
        (hpre x (List.mem_cons_self x xs))
      have hrec := ih (fun m hm => hpre m (List.mem_cons_of_mem x hm))
      simp [cmdListCollect, hentry, hrec]

/-- Witness for C9 (amended) on managers npm (healthy) and pip (failing). -/
theorem aggregate_isolation_spec_witness :
    (scanManagers demoScanEnv ["npm", "pip"]).length = ["npm", "pip"].length
    ∧ (∀ m ∈ ["npm", "pip"], (scanOne m (demoScanEnv m)).name = m)
    ∧ (∀ m ∈ ["npm", "pip"], ((demoScanEnv m).check_available).isOk = false →
        (scanOne m (demoScanEnv m)).available = false)
    ∧ cmdListCollect demoListEnv (["npm"] ++ "pip" :: []) = .error "pip list failed" :=
  aggregate_isolation_spec demoScanEnv demoListEnv ["npm", "pip"] ["npm"] []
    "pip" "pip list failed" (by decide) rfl

end Boxy
